import Mathlib

/-! Shallow embedding of `rpi/capture.py`, a bracketed still-image capture
session for a Raspberry Pi camera.  Pure helpers (`filename`, the textual
renderings used for `params.txt`) are translated directly.  The stateful
session body (`__main__`) is modelled as a function producing the ordered
trace of device calls and file writes; the camera device is abstracted by
the white-balance gain pair it reports and a per-call capture success
predicate.  The Python `with picamera.PiCamera(...)` block is modelled as
emitting `closeCamera` on every exit path, matching the semantics of the
`with` statement. -/

namespace Capture

/-- `fr = fractions.Fraction(17, 1)`. -/
def fr : Rat := 17

/-- `res = (3280, 2464)`. -/
def res : Nat × Nat := (3280, 2464)

/-- `iso_rng = [100]`. -/
def iso_rng : List Nat := [100]

/-- `shutter_rng = [1000, 2500, 5000, 10000]`. -/
def shutter_rng : List Nat := [1000, 2500, 5000, 10000]

/-- `name = 'raw'`. -/
def name : String := "raw"

/-- `folder = 'capture'`. -/
def folder : String := "capture"

/-- `output_format = 'jpg'`. -/
def output_format : String := "jpg"

/-- `filename(name, iso, shutter_speed)` from the source:
`'{0}-{1}-{2}.{3}'.format(name, iso, shutter_speed, output_format)`. -/
def filename (name : String) (iso shutter_speed : Nat) : String :=
  name ++ "-" ++ toString iso ++ "-" ++ toString shutter_speed ++ "." ++ output_format

/-- `os.path.join(a, b)` for a relative second component. -/
def pyJoin (a b : String) : String := a ++ "/" ++ b

/-- A white-balance gain pair as returned by `camera.awb_gains`: two
`fractions.Fraction` values (red gain, blue gain), kept in lowest terms. -/
structure Gains where
  red : Rat
  blue : Rat
deriving DecidableEq

/-- Python `repr` of `fractions.Fraction` in lowest terms. -/
def reprFraction (q : Rat) : String :=
  "Fraction(" ++ toString q.num ++ ", " ++ toString q.den ++ ")"

/-- Python `repr` of the two-element gains tuple, as rendered by
`'Gains: {}'.format(g)`. -/
def reprGains (g : Gains) : String :=
  "(" ++ reprFraction g.red ++ ", " ++ reprFraction g.blue ++ ")"

/-- Python `repr` of a list of integers, as rendered by `'{}'.format(lst)`. -/
def pyReprList (xs : List Nat) : String :=
  "[" ++ String.intercalate ", " (xs.map toString) ++ "]"

/-- One observable step of the session: a call into the camera device, a
sleep, or a file write. -/
inductive Event where
  | openCamera
  | startPreview
  | setISO (v : Nat)
  | sleepSec (s : Nat)
  | setShutter (v : Nat)
  | setExposureMode (m : String)
  | getAwbGains (g : Gains)
  | setAwbMode (m : String)
  | setAwbGains (g : Gains)
  | captureCall (destination : String)
  | stopPreview
  | writeFile (destination : String) (lines : List String)
  | closeCamera
deriving DecidableEq

/-- The mutable camera properties touched by the script. -/
structure CameraState where
  iso : Nat
  shutter_speed : Nat
  exposure_mode : String
  awb_mode : String
  awb_gains : Gains
deriving DecidableEq

/-- A fatal session error: an out-of-range list index during calibration
(`iso_rng[0]` or `shutter_rng[0]` on an empty list), or a failed
`camera.capture` call. -/
inductive Err where
  | indexError
  | captureError
deriving DecidableEq

/-- Result of the capture loop: trace of events, image files written,
(ISO, shutter) pairs attempted, final camera state, success flag. -/
structure LoopOut where
  trace : List Event
  files : List String
  pairs : List (Nat × Nat)
  cam : CameraState
  ok : Bool
deriving DecidableEq

/-- The destination handed to `camera.capture`:
`os.path.join(path, filename(name, iso, shutter_speed))`. -/
def dest (path nm : String) (p : Nat × Nat) : String :=
  pyJoin path (filename nm p.1 p.2)

/-- The body of `for idx, p in enumerate(it.product(iso_rng, shutter_rng))`:
set ISO, set shutter speed, call `camera.capture`.  `ok k` tells whether the
`k`-th capture call succeeds; a failing call raises, so the loop stops with
no further pair attempted and no file written for the failing pair. -/
def captureLoop (path nm : String) (ok : Nat → Bool) :
    Nat → CameraState → List (Nat × Nat) → LoopOut
  | _, cam, [] => ⟨[], [], [], cam, true⟩
  | k, cam, (iso, shutter) :: rest =>
    let cam' := { cam with iso := iso, shutter_speed := shutter }
    let d := dest path nm (iso, shutter)
    let evs : List Event := [.setISO iso, .setShutter shutter, .captureCall d]
    if ok k then
      let r := captureLoop path nm ok (k + 1) cam' rest
      ⟨evs ++ r.trace, d :: r.files, (iso, shutter) :: r.pairs, r.cam, r.ok⟩
    else
      ⟨evs, [], [(iso, shutter)], cam', false⟩

/-- `itertools.product(xs, ys)`: all pairs, first coordinate outermost. -/
def itProduct (xs ys : List Nat) : List (Nat × Nat) :=
  xs.flatMap fun x => ys.map fun y => (x, y)

/-- The five lines printed to `params.txt`, in order (lines 105-110 of the
source), reading `camera.exposure_mode` and `camera.awb_mode` back from the
device state after the loop. -/
def paramsLines (cam : CameraState) (g : Gains) (isos shutters : List Nat) :
    List String :=
  ["Exposure mode: " ++ cam.exposure_mode,
   "AWB mode: " ++ cam.awb_mode,
   "Gains: " ++ reprGains g,
   "ISOs: " ++ pyReprList isos,
   "Shutter speeds: " ++ pyReprList shutters]

/-- Observable outcome of one session: the event trace, the image files
written (in order), the manifest write if reached, the attempted pairs, and
the error raised, if any. -/
structure RunResult where
  trace : List Event
  imageFiles : List String
  params : Option (String × List String)
  pairsAttempted : List (Nat × Nat)
  err : Option Err
deriving DecidableEq

/-- The `__main__` body from `with picamera.PiCamera(...)` onwards, for
output directory `path`: preview, calibration lock (lines 71-77), capture
loop (lines 80-99), `stop_preview`, `params.txt` write.  `g0` is the gain
pair the device reports at `g = camera.awb_gains`; `ok` tells which capture
calls succeed.  The `with` block emits `closeCamera` on every exit path. -/
def run (nm : String) (isos shutters : List Nat) (path : String)
    (g0 : Gains) (ok : Nat → Bool) : RunResult :=
  let pre : List Event := [.openCamera, .startPreview]
  match isos, shutters with
  | [], _ =>
    ⟨pre ++ [.closeCamera], [], none, [], some .indexError⟩
  | i0 :: _, [] =>
    ⟨pre ++ [.setISO i0, .sleepSec 2, .closeCamera], [], none, [],
     some .indexError⟩
  | i0 :: _, s0 :: _ =>
    let cam : CameraState :=
      { iso := i0, shutter_speed := s0, exposure_mode := "off",
        awb_mode := "off", awb_gains := g0 }
    let calib : List Event :=
      [.setISO i0, .sleepSec 2, .setShutter s0, .setExposureMode "off",
       .getAwbGains g0, .setAwbMode "off", .setAwbGains g0]
    let r := captureLoop path nm ok 0 cam (itProduct isos shutters)
    if r.ok then
      let pfile := pyJoin path "params.txt"
      let lines := paramsLines r.cam g0 isos shutters
      ⟨pre ++ calib ++ r.trace ++
         [.stopPreview, .writeFile pfile lines, .closeCamera],
       r.files, some (pfile, lines), r.pairs, none⟩
    else
      ⟨pre ++ calib ++ r.trace ++ [.closeCamera], r.files, none, r.pairs,
       some .captureError⟩

/-- Filesystem model for `os.makedirs`: directories that exist, and paths
whose creation fails for a reason other than already existing
(e.g. permissions). -/
structure FS where
  dirs : List String
  broken : List String
deriving DecidableEq

/-- An `OSError` raised by `os.makedirs`. -/
inductive OSErr where
  | fileExists
  | other
deriving DecidableEq

/-- `os.makedirs(p, exist_ok=b)`: an existing path raises `FileExistsError`
only when `exist_ok` is false; other failures raise regardless. -/
def makedirs (fs : FS) (p : String) (exist_ok : Bool) : Except OSErr FS :=
  if p ∈ fs.broken then .error .other
  else if p ∈ fs.dirs then
    if exist_ok then .ok fs else .error .fileExists
  else .ok { fs with dirs := p :: fs.dirs }

/-- Session initialization (lines 58-60): build
`path = os.path.join(folder, timestamp)` and call
`os.makedirs(path, exist_ok=True)`. -/
def sessionInit (fs : FS) (timestamp : String) : Except OSErr (FS × String) :=
  let path := pyJoin folder timestamp
  (makedirs fs path true).map fun fs' => (fs', path)

/-- The `sys.argv` handling (lines 53-55):
`if len(sys.argv) == 2: name = str(sys.argv[1])`.  `argv` includes the
program name at index 0. -/
def resolveName (argv : List String) : String :=
  if argv.length = 2 then argv.getD 1 name else name

/-- Destinations of the `camera.capture` calls in a trace, in order. -/
def captureDests (t : List Event) : List String :=
  t.filterMap fun e =>
    match e with
    | .captureCall d => some d
    | _ => none

/-- The file writes in a trace, in order, with their line lists. -/
def fileWrites (t : List Event) : List (String × List String) :=
  t.filterMap fun e =>
    match e with
    | .writeFile d ls => some (d, ls)
    | _ => none

/-- Number of `openCamera` events in a trace. -/
def openCount (t : List Event) : Nat :=
  t.countP fun e => match e with | .openCamera => true | _ => false

/-- Number of `closeCamera` events in a trace. -/
def closeCount (t : List Event) : Nat :=
  t.countP fun e => match e with | .closeCamera => true | _ => false

/-- Index of the first `writeFile` event in a trace. -/
def writeFileIdx (t : List Event) : Nat :=
  t.findIdx fun e => match e with | .writeFile _ _ => true | _ => false

/-- Index of the first `closeCamera` event in a trace. -/
def closeCameraIdx (t : List Event) : Nat :=
  t.findIdx fun e => match e with | .closeCamera => true | _ => false

/-- Events emitted inside the capture loop body. -/
def isLoopEvent (e : Event) : Bool :=
  match e with
  | .setISO _ => true
  | .setShutter _ => true
  | .captureCall _ => true
  | _ => false

/-- Decimal digit characters of `n`, most significant first: the numeral
that `Nat.toDigits 10` computes. -/
def digitsList (n : Nat) : List Char :=
  if n < 10 then [Nat.digitChar n]
  else digitsList (n / 10) ++ [Nat.digitChar (n % 10)]
decreasing_by exact Nat.div_lt_self (by omega) (by omega)

/-- Numeric value of a decimal digit character. -/
def digitVal (c : Char) : Nat := c.toNat - 48

/-- Decode a most-significant-first digit string back to a number. -/
def decodeDigits (cs : List Char) : Nat :=
  cs.foldl (fun a c => 10 * a + digitVal c) 0

lemma digitChar_isDigit : ∀ m, m < 10 → (Nat.digitChar m).isDigit = true := by
  decide

lemma digitVal_digitChar : ∀ m, m < 10 → digitVal (Nat.digitChar m) = m := by
  decide

lemma digitsList_isDigit (n : Nat) : ∀ c ∈ digitsList n, c.isDigit = true := by
  induction n using Nat.strong_induction_on with
  | _ n ih =>
    intro c hc
    by_cases h : n < 10
    · rw [digitsList, if_pos h] at hc
      simp only [List.mem_singleton] at hc
      subst hc
      exact digitChar_isDigit n h
    · rw [digitsList, if_neg h] at hc
      rw [List.mem_append] at hc
      rcases hc with hc | hc
      · exact ih (n / 10) (Nat.div_lt_self (by omega) (by omega)) c hc
      · simp only [List.mem_singleton] at hc
        subst hc
        exact digitChar_isDigit (n % 10) (by omega)

lemma dash_not_mem_digitsList (n : Nat) : ('-') ∉ digitsList n := fun h =>
  absurd (digitsList_isDigit n _ h) (by decide)

lemma dot_not_mem_digitsList (n : Nat) : ('.') ∉ digitsList n := fun h =>
  absurd (digitsList_isDigit n _ h) (by decide)

lemma foldl_digitsList (n : Nat) : ∀ a : Nat,
    (digitsList n).foldl (fun a c => 10 * a + digitVal c) a
      = a * 10 ^ (digitsList n).length + n := by
  induction n using Nat.strong_induction_on with
  | _ n ih =>
    intro a
    by_cases h : n < 10
    · rw [digitsList, if_pos h]
      simp only [List.foldl_cons, List.foldl_nil, List.length_singleton,
        digitVal_digitChar n h, pow_one]
      ring
    · rw [digitsList, if_neg h]
      rw [List.foldl_append, ih (n / 10) (Nat.div_lt_self (by omega) (by omega))]
      simp only [List.foldl_cons, List.foldl_nil,
        digitVal_digitChar (n % 10) (by omega), List.length_append,
        List.length_singleton]
      have h1 : 10 * (n / 10) + n % 10 = n := by omega
      rw [pow_succ]
      linarith [h1]

lemma decodeDigits_digitsList (n : Nat) : decodeDigits (digitsList n) = n := by
  rw [decodeDigits, foldl_digitsList n 0]
  ring

lemma digitsList_inj {m n : Nat} (h : digitsList m = digitsList n) : m = n := by
  have hm := decodeDigits_digitsList m
  rw [h, decodeDigits_digitsList] at hm
  omega

lemma toDigitsCore_eq_digitsList :
    ∀ (fuel n : Nat) (acc : List Char), n < fuel →
      Nat.toDigitsCore 10 fuel n acc = digitsList n ++ acc := by
  intro fuel
  induction fuel with
  | zero => intro n acc h; omega
  | succ f ih =>
    intro n acc h
    by_cases h10 : n < 10
    · have hz : n / 10 = 0 := by omega
      have hm : n % 10 = n := by omega
      simp only [Nat.toDigitsCore, hz, if_pos, hm]
      rw [digitsList, if_pos h10]
      rfl
    · have hz : ¬ n / 10 = 0 := by omega
      have hrec : digitsList n = digitsList (n / 10) ++ [Nat.digitChar (n % 10)] := by
        rw [digitsList, if_neg h10]
      simp only [Nat.toDigitsCore]
      rw [if_neg hz, ih (n / 10) _ (by omega), hrec]
      simp [List.append_assoc]

lemma toDigits_eq_digitsList (n : Nat) : Nat.toDigits 10 n = digitsList n := by
  rw [show Nat.toDigits 10 n = Nat.toDigitsCore 10 (n + 1) n [] from rfl,
    toDigitsCore_eq_digitsList (n + 1) n [] (by omega), List.append_nil]

lemma toString_nat_data (n : Nat) : (toString n).data = digitsList n := by
  rw [show (toString n).data = Nat.toDigits 10 n from rfl, toDigits_eq_digitsList]

lemma append_sep_inj (c : Char) :
    ∀ (t₁ t₂ r₁ r₂ : List Char), c ∉ t₁ → c ∉ t₂ →
      t₁ ++ c :: r₁ = t₂ ++ c :: r₂ → t₁ = t₂ ∧ r₁ = r₂ := by
  intro t₁
  induction t₁ with
  | nil =>
    intro t₂ r₁ r₂ h₁ h₂ he
    cases t₂ with
    | nil => simpa using he
    | cons b bs =>
      simp only [List.nil_append, List.cons_append, List.cons.injEq] at he
      exact absurd (he.1 ▸ List.mem_cons_self b bs) h₂
  | cons a as ih =>
    intro t₂ r₁ r₂ h₁ h₂ he
    cases t₂ with
    | nil =>
      simp only [List.cons_append, List.nil_append, List.cons.injEq] at he
      exact absurd (he.1 ▸ List.mem_cons_self a as) h₁
    | cons b bs =>
      simp only [List.cons_append, List.cons.injEq] at he
      obtain ⟨rfl, he2⟩ := he
      have hr := ih bs r₁ r₂ (fun hx => h₁ (List.mem_cons_of_mem a hx))
        (fun hx => h₂ (List.mem_cons_of_mem a hx)) he2
      exact ⟨by rw [hr.1], hr.2⟩

lemma filename_inj (nm : String) {i₁ s₁ i₂ s₂ : Nat}
    (h : filename nm i₁ s₁ = filename nm i₂ s₂) : i₁ = i₂ ∧ s₁ = s₂ := by
  have hd := congrArg String.data h
  simp only [filename, String.data_append] at hd
  rw [toString_nat_data i₁, toString_nat_data s₁, toString_nat_data i₂,
    toString_nat_data s₂] at hd
  simp only [List.append_assoc, List.cons_append, List.singleton_append] at hd
  have h1 := List.append_cancel_left hd
  simp only [List.cons.injEq, true_and] at h1
  obtain ⟨hi, h2⟩ := append_sep_inj '-' _ _ _ _ (dash_not_mem_digitsList i₁)
    (dash_not_mem_digitsList i₂) h1
  obtain ⟨hs, _⟩ := append_sep_inj '.' _ _ _ _ (dot_not_mem_digitsList s₁)
    (dot_not_mem_digitsList s₂) h2
  exact ⟨digitsList_inj hi, digitsList_inj hs⟩

lemma dest_inj (path nm : String) {p q : Nat × Nat}
    (h : dest path nm p = dest path nm q) : p = q := by
  obtain ⟨i₁, s₁⟩ := p
  obtain ⟨i₂, s₂⟩ := q
  have hd := congrArg String.data h
  simp only [dest, pyJoin, String.data_append] at hd
  have hf := filename_inj nm (String.ext (List.append_cancel_left hd))
  exact Prod.ext hf.1 hf.2

lemma itProduct_length (xs ys : List Nat) :
    (itProduct xs ys).length = xs.length * ys.length := by
  induction xs with
  | nil => simp [itProduct]
  | cons x xs ih =>
    simp only [itProduct, List.flatMap_cons, List.length_append,
      List.length_map, List.length_cons] at *
    rw [ih, Nat.succ_mul]
    omega

lemma itProduct_mem (xs ys : List Nat) (p : Nat × Nat) :
    p ∈ itProduct xs ys ↔ p.1 ∈ xs ∧ p.2 ∈ ys := by
  obtain ⟨a, b⟩ := p
  simp only [itProduct, List.mem_flatMap, List.mem_map, Prod.mk.injEq]
  constructor
  · rintro ⟨x, hx, y, hy, rfl, rfl⟩
    exact ⟨hx, hy⟩
  · rintro ⟨ha, hb⟩
    exact ⟨a, ha, b, hb, rfl, rfl⟩

lemma captureLoop_trace_loopEvents (path nm : String) (ok : Nat → Bool) :
    ∀ (ps : List (Nat × Nat)) (k : Nat) (cam : CameraState),
      ∀ e ∈ (captureLoop path nm ok k cam ps).trace, isLoopEvent e = true := by
  intro ps
  induction ps with
  | nil => intro k cam e he; simp [captureLoop] at he
  | cons p rest ih =>
    intro k cam e he
    obtain ⟨iso, shutter⟩ := p
    by_cases hk : ok k = true
    · simp only [captureLoop, hk, if_true, List.cons_append, List.nil_append,
        List.mem_cons] at he
      rcases he with rfl | rfl | rfl | he
      · rfl
      · rfl
      · rfl
      · exact ih (k + 1) _ e he
    · simp only [captureLoop, hk, if_false, Bool.false_eq_true, List.mem_cons,
        List.not_mem_nil, or_false] at he
      rcases he with rfl | rfl | rfl
      · rfl
      · rfl
      · rfl

lemma captureLoop_cam_modes (path nm : String) (ok : Nat → Bool) :
    ∀ (ps : List (Nat × Nat)) (k : Nat) (cam : CameraState),
      (captureLoop path nm ok k cam ps).cam.exposure_mode = cam.exposure_mode ∧
      (captureLoop path nm ok k cam ps).cam.awb_mode = cam.awb_mode := by
  intro ps
  induction ps with
  | nil => intro k cam; simp [captureLoop]
  | cons p rest ih =>
    intro k cam
    obtain ⟨iso, shutter⟩ := p
    by_cases hk : ok k = true
    · simpa [captureLoop, hk] using
        ih (k + 1) { cam with iso := iso, shutter_speed := shutter }
    · simp [captureLoop, hk]

lemma captureLoop_dests (path nm : String) (ok : Nat → Bool) :
    ∀ (ps : List (Nat × Nat)) (k : Nat) (cam : CameraState),
      captureDests (captureLoop path nm ok k cam ps).trace
        = (captureLoop path nm ok k cam ps).pairs.map (dest path nm) := by
  intro ps
  induction ps with
  | nil => intro k cam; simp [captureLoop, captureDests]
  | cons p rest ih =>
    intro k cam
    obtain ⟨iso, shutter⟩ := p
    by_cases hk : ok k = true
    · simp only [captureLoop, hk, if_true]
      simp [captureDests, List.filterMap_append, ← ih (k + 1)]
    · simp [captureLoop, hk, captureDests]

lemma captureLoop_allOk (path nm : String) :
    ∀ (ps : List (Nat × Nat)) (k : Nat) (cam : CameraState),
      (captureLoop path nm (fun _ => true) k cam ps).pairs = ps ∧
      (captureLoop path nm (fun _ => true) k cam ps).files
        = ps.map (dest path nm) ∧
      (captureLoop path nm (fun _ => true) k cam ps).ok = true := by
  intro ps
  induction ps with
  | nil => intro k cam; simp [captureLoop]
  | cons p rest ih =>
    intro k cam
    obtain ⟨iso, shutter⟩ := p
    have h := ih (k + 1) { cam with iso := iso, shutter_speed := shutter }
    simp [captureLoop, h.1, h.2.1, h.2.2]

lemma captureLoop_fails (path nm : String) (ok : Nat → Bool) :
    ∀ (ps : List (Nat × Nat)) (m k : Nat) (cam : CameraState),
      m < ps.length → (∀ j, j < m → ok (k + j) = true) → ok (k + m) = false →
      (captureLoop path nm ok k cam ps).ok = false ∧
      (captureLoop path nm ok k cam ps).pairs = ps.take (m + 1) ∧
      (captureLoop path nm ok k cam ps).files
        = (ps.take m).map (dest path nm) := by
  intro ps
  induction ps with
  | nil => intro m k cam hm; simp at hm
  | cons p rest ih =>
    intro m k cam hm hok hfail
    obtain ⟨iso, shutter⟩ := p
    cases m with
    | zero =>
      have h0 : ok k = false := by simpa using hfail
      simp [captureLoop, h0]
    | succ m' =>
      have h0 : ok k = true := by simpa using hok 0 (by omega)
      have hok' : ∀ j, j < m' → ok (k + 1 + j) = true := fun j hj => by
        have h := hok (j + 1) (by omega)
        rwa [show k + (j + 1) = k + 1 + j from by omega] at h
      have hfail' : ok (k + 1 + m') = false := by
        have h := hfail
        rwa [show k + (m' + 1) = k + 1 + m' from by omega] at h
      have h := ih m' (k + 1) { cam with iso := iso, shutter_speed := shutter }
        (by simp at hm; omega) hok' hfail'
      simp [captureLoop, h0, h.1, h.2.1, h.2.2]

lemma itProduct_nodup {xs ys : List Nat} (hx : xs.Nodup) (hy : ys.Nodup) :
    (itProduct xs ys).Nodup := by
  rw [itProduct, List.nodup_flatMap]
  refine ⟨fun x _ => hy.map fun a b hab => by simpa using hab, ?_⟩
  refine hx.imp ?_
  intro a b hab p hp hq
  simp only [List.mem_map] at hp hq
  obtain ⟨y₁, _, rfl⟩ := hp
  obtain ⟨y₂, _, hq2⟩ := hq
  exact hab (congrArg Prod.fst hq2).symm

lemma captureDests_append (t u : List Event) :
    captureDests (t ++ u) = captureDests t ++ captureDests u :=
  List.filterMap_append t u _

lemma fileWrites_append (t u : List Event) :
    fileWrites (t ++ u) = fileWrites t ++ fileWrites u :=
  List.filterMap_append t u _

lemma captureLoop_no_writes (path nm : String) (ok : Nat → Bool)
    (ps : List (Nat × Nat)) (k : Nat) (cam : CameraState) :
    fileWrites (captureLoop path nm ok k cam ps).trace = [] := by
  rw [fileWrites, List.filterMap_eq_nil_iff]
  intro e he
  have h := captureLoop_trace_loopEvents path nm ok ps k cam e he
  cases e <;> simp_all [isLoopEvent]

lemma captureLoop_openCount (path nm : String) (ok : Nat → Bool)
    (ps : List (Nat × Nat)) (k : Nat) (cam : CameraState) :
    openCount (captureLoop path nm ok k cam ps).trace = 0 := by
  rw [openCount, List.countP_eq_zero]
  intro e he
  have h := captureLoop_trace_loopEvents path nm ok ps k cam e he
  cases e <;> simp_all [isLoopEvent]

lemma captureLoop_closeCount (path nm : String) (ok : Nat → Bool)
    (ps : List (Nat × Nat)) (k : Nat) (cam : CameraState) :
    closeCount (captureLoop path nm ok k cam ps).trace = 0 := by
  rw [closeCount, List.countP_eq_zero]
  intro e he
  have h := captureLoop_trace_loopEvents path nm ok ps k cam e he
  cases e <;> simp_all [isLoopEvent]

lemma captureLoop_no_close (path nm : String) (ok : Nat → Bool)
    (ps : List (Nat × Nat)) (k : Nat) (cam : CameraState) :
    Event.closeCamera ∉ (captureLoop path nm ok k cam ps).trace := by
  intro he
  have h := captureLoop_trace_loopEvents path nm ok ps k cam _ he
  simp [isLoopEvent] at h

lemma run_cons (nm path : String) (g0 : Gains) (ok : Nat → Bool)
    (i0 s0 : Nat) (isos shutters : List Nat) :
    run nm (i0 :: isos) (s0 :: shutters) path g0 ok =
      (let r := captureLoop path nm ok 0 ⟨i0, s0, "off", "off", g0⟩
        (itProduct (i0 :: isos) (s0 :: shutters))
      if r.ok then
        ⟨[.openCamera, .startPreview, .setISO i0, .sleepSec 2, .setShutter s0,
            .setExposureMode "off", .getAwbGains g0, .setAwbMode "off",
            .setAwbGains g0] ++ r.trace ++
          [.stopPreview,
           .writeFile (pyJoin path "params.txt")
             (paramsLines r.cam g0 (i0 :: isos) (s0 :: shutters)),
           .closeCamera],
         r.files,
         some (pyJoin path "params.txt",
           paramsLines r.cam g0 (i0 :: isos) (s0 :: shutters)),
         r.pairs, none⟩
      else
        ⟨[.openCamera, .startPreview, .setISO i0, .sleepSec 2, .setShutter s0,
            .setExposureMode "off", .getAwbGains g0, .setAwbMode "off",
            .setAwbGains g0] ++ r.trace ++ [.closeCamera],
         r.files, none, r.pairs, some .captureError⟩) := rfl

lemma run_fields_ok (nm path : String) (g0 : Gains) (ok : Nat → Bool)
    (i0 s0 : Nat) (isos shutters : List Nat)
    (h : (captureLoop path nm ok 0 ⟨i0, s0, "off", "off", g0⟩
        (itProduct (i0 :: isos) (s0 :: shutters))).ok = true) :
    (run nm (i0 :: isos) (s0 :: shutters) path g0 ok).trace
        = [.openCamera, .startPreview, .setISO i0, .sleepSec 2, .setShutter s0,
           .setExposureMode "off", .getAwbGains g0, .setAwbMode "off",
           .setAwbGains g0] ++
          (captureLoop path nm ok 0 ⟨i0, s0, "off", "off", g0⟩
            (itProduct (i0 :: isos) (s0 :: shutters))).trace ++
          [.stopPreview,
           .writeFile (pyJoin path "params.txt")
             (paramsLines (captureLoop path nm ok 0 ⟨i0, s0, "off", "off", g0⟩
                (itProduct (i0 :: isos) (s0 :: shutters))).cam g0
               (i0 :: isos) (s0 :: shutters)),
           .closeCamera] ∧
    (run nm (i0 :: isos) (s0 :: shutters) path g0 ok).imageFiles
        = (captureLoop path nm ok 0 ⟨i0, s0, "off", "off", g0⟩
            (itProduct (i0 :: isos) (s0 :: shutters))).files ∧
    (run nm (i0 :: isos) (s0 :: shutters) path g0 ok).params
        = some (pyJoin path "params.txt",
            paramsLines (captureLoop path nm ok 0 ⟨i0, s0, "off", "off", g0⟩
              (itProduct (i0 :: isos) (s0 :: shutters))).cam g0
              (i0 :: isos) (s0 :: shutters)) ∧
    (run nm (i0 :: isos) (s0 :: shutters) path g0 ok).pairsAttempted
        = (captureLoop path nm ok 0 ⟨i0, s0, "off", "off", g0⟩
            (itProduct (i0 :: isos) (s0 :: shutters))).pairs ∧
    (run nm (i0 :: isos) (s0 :: shutters) path g0 ok).err = none := by
  simp only [run_cons]
  rw [if_pos h]
  exact ⟨rfl, rfl, rfl, rfl, rfl⟩

lemma run_fields_fail (nm path : String) (g0 : Gains) (ok : Nat → Bool)
    (i0 s0 : Nat) (isos shutters : List Nat)
    (h : (captureLoop path nm ok 0 ⟨i0, s0, "off", "off", g0⟩
        (itProduct (i0 :: isos) (s0 :: shutters))).ok = false) :
    (run nm (i0 :: isos) (s0 :: shutters) path g0 ok).trace
        = [.openCamera, .startPreview, .setISO i0, .sleepSec 2, .setShutter s0,
           .setExposureMode "off", .getAwbGains g0, .setAwbMode "off",
           .setAwbGains g0] ++
          (captureLoop path nm ok 0 ⟨i0, s0, "off", "off", g0⟩
            (itProduct (i0 :: isos) (s0 :: shutters))).trace ++
          [.closeCamera] ∧
    (run nm (i0 :: isos) (s0 :: shutters) path g0 ok).imageFiles
        = (captureLoop path nm ok 0 ⟨i0, s0, "off", "off", g0⟩
            (itProduct (i0 :: isos) (s0 :: shutters))).files ∧
    (run nm (i0 :: isos) (s0 :: shutters) path g0 ok).params = none ∧
    (run nm (i0 :: isos) (s0 :: shutters) path g0 ok).pairsAttempted
        = (captureLoop path nm ok 0 ⟨i0, s0, "off", "off", g0⟩
            (itProduct (i0 :: isos) (s0 :: shutters))).pairs ∧
    (run nm (i0 :: isos) (s0 :: shutters) path g0 ok).err
        = some .captureError := by
  simp only [run_cons]
  rw [if_neg (by simp [h])]
  exact ⟨rfl, rfl, rfl, rfl, rfl⟩

/-- C1: for every ISO list and shutter-speed list, the session performs
exactly |I|·|S| capture calls, and the set of destination filenames is
exactly `path/{name}-{iso}-{shutter}.{format}` over the Cartesian product
I×S, each under the session's output path. -/
theorem capture_files_complete (nm path : String) (g0 : Gains)
    (isos shutters : List Nat) :
    (captureDests (run nm isos shutters path g0 (fun _ => true)).trace).length
      = isos.length * shutters.length ∧
    ∀ d, d ∈ captureDests (run nm isos shutters path g0 (fun _ => true)).trace ↔
      ∃ iso shutter, iso ∈ isos ∧ shutter ∈ shutters ∧
        d = pyJoin path (filename nm iso shutter) := by
  match isos, shutters with
  | [], ss => exact ⟨by simp [run, captureDests], fun d => by simp [run, captureDests]⟩
  | i0 :: is', [] =>
    exact ⟨by simp [run, captureDests], fun d => by simp [run, captureDests]⟩
  | i0 :: is', s0 :: ss' =>
    have hall := captureLoop_allOk path nm (itProduct (i0 :: is') (s0 :: ss')) 0
      ⟨i0, s0, "off", "off", g0⟩
    have hf := run_fields_ok nm path g0 (fun _ => true) i0 s0 is' ss' hall.2.2
    have hdest : captureDests
        (run nm (i0 :: is') (s0 :: ss') path g0 (fun _ => true)).trace
        = (itProduct (i0 :: is') (s0 :: ss')).map (dest path nm) := by
      rw [hf.1, captureDests_append, captureDests_append, captureLoop_dests,
        hall.1]
      simp [captureDests]
    rw [hdest]
    constructor
    · rw [List.length_map, itProduct_length]
    · intro d
      simp only [List.mem_map]
      constructor
      · rintro ⟨⟨iso, shutter⟩, hp, rfl⟩
        rw [itProduct_mem] at hp
        exact ⟨iso, shutter, hp.1, hp.2, rfl⟩
      · rintro ⟨iso, shutter, hi, hs, rfl⟩
        exact ⟨(iso, shutter), (itProduct_mem _ _ _).mpr ⟨hi, hs⟩, rfl⟩

/-- C2: the capture loop processes exactly the Cartesian product of the ISO
list and the shutter list enumerated ISO-major, shutter-minor (for each ISO
in list order, all shutter values in list order); in particular for
I=[100,200], S=[1000,2000] the order is
(100,1000),(100,2000),(200,1000),(200,2000). -/
theorem capture_order_iso_major (nm path : String) (g0 : Gains)
    (isos shutters : List Nat) :
    (run nm isos shutters path g0 (fun _ => true)).pairsAttempted
      = isos.flatMap (fun iso => shutters.map fun shutter => (iso, shutter)) ∧
    (run nm [100, 200] [1000, 2000] path g0 (fun _ => true)).pairsAttempted
      = [(100, 1000), (100, 2000), (200, 1000), (200, 2000)] := by
  constructor
  · match isos, shutters with
    | [], ss => simp [run]
    | i0 :: is', [] =>
      have h0 : itProduct (i0 :: is') [] = [] :=
        List.eq_nil_of_length_eq_zero (by rw [itProduct_length]; simp)
      show (run nm (i0 :: is') [] path g0 (fun _ => true)).pairsAttempted
        = itProduct (i0 :: is') []
      rw [h0]
      simp [run]
    | i0 :: is', s0 :: ss' =>
      have hall := captureLoop_allOk path nm (itProduct (i0 :: is') (s0 :: ss')) 0
        ⟨i0, s0, "off", "off", g0⟩
      have hf := run_fields_ok nm path g0 (fun _ => true) i0 s0 is' ss' hall.2.2
      rw [hf.2.2.2.1]
      exact hall.1
  · rfl

/-- C3: the calibration sequence issued to the device before the capture
loop is exactly, in order: set ISO to the first ISO value, sleep 2 seconds,
set shutter speed to the first shutter value, set exposure mode to "off",
read the AWB gain pair, set AWB mode to "off", re-apply the gain pair —
with no other device writes in between (the nine-event prefix below is the
whole trace up to the capture loop). -/
theorem calibration_sequence_exact (nm path : String) (g0 : Gains)
    (ok : Nat → Bool) (i0 s0 : Nat) (isos shutters : List Nat) :
    ∃ rest, (run nm (i0 :: isos) (s0 :: shutters) path g0 ok).trace =
      [.openCamera, .startPreview, .setISO i0, .sleepSec 2, .setShutter s0,
       .setExposureMode "off", .getAwbGains g0, .setAwbMode "off",
       .setAwbGains g0] ++ rest := by
  rcases Bool.eq_false_or_eq_true
      ((captureLoop path nm ok 0 ⟨i0, s0, "off", "off", g0⟩
        (itProduct (i0 :: isos) (s0 :: shutters))).ok) with h | h
  · have hf := run_fields_ok nm path g0 ok i0 s0 isos shutters h
    exact ⟨_, by rw [hf.1, List.append_assoc]⟩
  · have hf := run_fields_fail nm path g0 ok i0 s0 isos shutters h
    exact ⟨_, by rw [hf.1, List.append_assoc]⟩

/-- C4: after all captures complete, exactly one file is written: the
manifest `params.txt` under the session path, containing — in order — the
exposure mode, the AWB mode, the gain pair read during calibration, the
configured ISO list verbatim and the configured shutter-speed list
verbatim, each with its fixed prefix. -/
theorem params_manifest_exact (nm path : String) (g0 : Gains)
    (i0 s0 : Nat) (isos shutters : List Nat) :
    (run nm (i0 :: isos) (s0 :: shutters) path g0 (fun _ => true)).params
      = some (pyJoin path "params.txt",
        ["Exposure mode: off", "AWB mode: off", "Gains: " ++ reprGains g0,
         "ISOs: " ++ pyReprList (i0 :: isos),
         "Shutter speeds: " ++ pyReprList (s0 :: shutters)]) ∧
    fileWrites (run nm (i0 :: isos) (s0 :: shutters) path g0
        (fun _ => true)).trace
      = [(pyJoin path "params.txt",
        ["Exposure mode: off", "AWB mode: off", "Gains: " ++ reprGains g0,
         "ISOs: " ++ pyReprList (i0 :: isos),
         "Shutter speeds: " ++ pyReprList (s0 :: shutters)])] := by
  have hall := captureLoop_allOk path nm (itProduct (i0 :: isos) (s0 :: shutters))
    0 ⟨i0, s0, "off", "off", g0⟩
  have hmodes := captureLoop_cam_modes path nm (fun _ => true)
    (itProduct (i0 :: isos) (s0 :: shutters)) 0 ⟨i0, s0, "off", "off", g0⟩
  have hf := run_fields_ok nm path g0 (fun _ => true) i0 s0 isos shutters hall.2.2
  have hlines : paramsLines
      (captureLoop path nm (fun _ => true) 0 ⟨i0, s0, "off", "off", g0⟩
        (itProduct (i0 :: isos) (s0 :: shutters))).cam g0
      (i0 :: isos) (s0 :: shutters)
      = ["Exposure mode: off", "AWB mode: off", "Gains: " ++ reprGains g0,
         "ISOs: " ++ pyReprList (i0 :: isos),
         "Shutter speeds: " ++ pyReprList (s0 :: shutters)] := by
    rw [paramsLines, hmodes.1, hmodes.2]
    rfl
  constructor
  · rw [hf.2.2.1, hlines]
  · rw [hf.1, fileWrites_append, fileWrites_append, captureLoop_no_writes,
      hlines]
    rfl

/-- C6: in every session — any gains, any capture-failure pattern, empty or
nonempty configuration lists — the camera handle is opened exactly once and
closed exactly once: the `with` block releases the device on every exit
path, including early termination by an error. -/
theorem camera_open_close_balanced (nm path : String) (g0 : Gains)
    (ok : Nat → Bool) (isos shutters : List Nat) :
    openCount (run nm isos shutters path g0 ok).trace = 1 ∧
    closeCount (run nm isos shutters path g0 ok).trace = 1 := by
  match isos, shutters with
  | [], ss => exact ⟨rfl, rfl⟩
  | i0 :: is', [] => exact ⟨rfl, rfl⟩
  | i0 :: is', s0 :: ss' =>
    have hopen := captureLoop_openCount path nm ok
      (itProduct (i0 :: is') (s0 :: ss')) 0 ⟨i0, s0, "off", "off", g0⟩
    have hclose := captureLoop_closeCount path nm ok
      (itProduct (i0 :: is') (s0 :: ss')) 0 ⟨i0, s0, "off", "off", g0⟩
    rw [openCount] at hopen
    rw [closeCount] at hclose
    rcases Bool.eq_false_or_eq_true
        ((captureLoop path nm ok 0 ⟨i0, s0, "off", "off", g0⟩
          (itProduct (i0 :: is') (s0 :: ss'))).ok) with h | h
    · have hf := run_fields_ok nm path g0 ok i0 s0 is' ss' h
      constructor
      · rw [openCount, hf.1, List.countP_append, List.countP_append, hopen]
        rfl
      · rw [closeCount, hf.1, List.countP_append, List.countP_append, hclose]
        rfl
    · have hf := run_fields_fail nm path g0 ok i0 s0 is' ss' h
      constructor
      · rw [openCount, hf.1, List.countP_append, List.countP_append, hopen]
        rfl
      · rw [closeCount, hf.1, List.countP_append, List.countP_append, hclose]
        rfl

/-- C10: the command-line name override takes effect only when exactly one
positional argument is supplied (argv length 2, program name included);
with zero extra arguments, or two or more, the default base name "raw" is
used, and extra arguments are silently ignored without error. -/
theorem name_override_argv (prog x y : String) (rest : List String) :
    resolveName [prog] = name ∧ resolveName [prog, x] = x ∧
    resolveName (prog :: x :: y :: rest) = name := by
  refine ⟨by simp [resolveName], by simp [resolveName], ?_⟩
  have h : (prog :: x :: y :: rest).length ≠ 2 := by
    simp [List.length_cons]
  simp [resolveName, h]

/-- C5: if the capture call at 0-based index k (pair k+1 of n) fails, the
session aborts immediately: the error propagates uncaught, the attempted
pairs are exactly the first k+1 of the product (no later pair is attempted
and none is retried), exactly the k image files from the earlier pairs
remain on disk (no cleanup or rollback), and no manifest is written. -/
theorem capture_failure_aborts (nm path : String) (g0 : Gains)
    (i0 s0 : Nat) (isos shutters : List Nat) (ok : Nat → Bool) (k : Nat)
    (hk : k < (i0 :: isos).length * (s0 :: shutters).length)
    (hbefore : ∀ j, j < k → ok j = true) (hfail : ok k = false) :
    (run nm (i0 :: isos) (s0 :: shutters) path g0 ok).err
        = some .captureError ∧
    (run nm (i0 :: isos) (s0 :: shutters) path g0 ok).pairsAttempted
        = (itProduct (i0 :: isos) (s0 :: shutters)).take (k + 1) ∧
    (run nm (i0 :: isos) (s0 :: shutters) path g0 ok).imageFiles
        = ((itProduct (i0 :: isos) (s0 :: shutters)).take k).map
            (dest path nm) ∧
    (run nm (i0 :: isos) (s0 :: shutters) path g0 ok).params = none := by
  have hlen : k < (itProduct (i0 :: isos) (s0 :: shutters)).length := by
    rw [itProduct_length]; exact hk
  have hl := captureLoop_fails path nm ok
    (itProduct (i0 :: isos) (s0 :: shutters)) k 0 ⟨i0, s0, "off", "off", g0⟩
    hlen (fun j hj => by simpa using hbefore j hj) (by simpa using hfail)
  have hf := run_fields_fail nm path g0 ok i0 s0 isos shutters hl.1
  exact ⟨hf.2.2.2.2, by rw [hf.2.2.2.1, hl.2.1], by rw [hf.2.1, hl.2.2],
    hf.2.2.1⟩

/-- Witness for C5 at name "raw", I=[100], S=[1000,2500], failing capture
index k=1: the error propagates, the failing pair is the last attempted,
exactly one earlier image file remains, and no manifest is written. -/
theorem capture_failure_aborts_witness :
    (1 < ([100] : List Nat).length * ([1000, 2500] : List Nat).length) ∧
    (∀ j, j < 1 → (fun j => decide (j < 1)) j = true) ∧
    ((fun j => decide (j < 1)) 1 = false) ∧
    ((run "raw" [100] [1000, 2500] "capture/t" ⟨1, 1⟩
        (fun j => decide (j < 1))).err = some .captureError ∧
     (run "raw" [100] [1000, 2500] "capture/t" ⟨1, 1⟩
        (fun j => decide (j < 1))).pairsAttempted
        = (itProduct [100] [1000, 2500]).take 2 ∧
     (run "raw" [100] [1000, 2500] "capture/t" ⟨1, 1⟩
        (fun j => decide (j < 1))).imageFiles
        = ((itProduct [100] [1000, 2500]).take 1).map
            (dest "capture/t" "raw") ∧
     (run "raw" [100] [1000, 2500] "capture/t" ⟨1, 1⟩
        (fun j => decide (j < 1))).params = none) :=
  ⟨by decide, fun j hj => decide_eq_true hj, by decide,
   capture_failure_aborts "raw" "capture/t" ⟨1, 1⟩ 100 1000 [] [2500]
     (fun j => decide (j < 1)) 1 (by decide)
     (fun j hj => decide_eq_true hj) (by decide)⟩

/-- C7 counterexample: at name "raw", I=[100], S=[1000], on the error-free
path the `params.txt` write occurs strictly before the camera is closed
(the write sits inside the `with` block), contradicting the claim that the
manifest write happens after the device has been released. -/
theorem manifest_written_inside_device_scope_cex :
    writeFileIdx (run "raw" [100] [1000] "capture/t" ⟨1, 1⟩
        (fun _ => true)).trace
      < closeCameraIdx (run "raw" [100] [1000] "capture/t" ⟨1, 1⟩
        (fun _ => true)).trace ∧
    ¬ (closeCameraIdx (run "raw" [100] [1000] "capture/t" ⟨1, 1⟩
        (fun _ => true)).trace
      < writeFileIdx (run "raw" [100] [1000] "capture/t" ⟨1, 1⟩
        (fun _ => true)).trace) := by
  decide

/-- C7 amended: on the error-free path the session stops the preview, then
writes the manifest, and releases the camera only after the manifest write:
the final three events of every successful trace are `stopPreview`, the
`params.txt` write, and `closeCamera`, with no earlier `closeCamera`. -/
theorem preview_stop_then_manifest_then_close (nm path : String) (g0 : Gains)
    (i0 s0 : Nat) (isos shutters : List Nat) :
    ∃ t₀ lines,
      (run nm (i0 :: isos) (s0 :: shutters) path g0 (fun _ => true)).trace
        = t₀ ++ [.stopPreview, .writeFile (pyJoin path "params.txt") lines,
                 .closeCamera] ∧
      Event.closeCamera ∉ t₀ := by
  have hall := captureLoop_allOk path nm
    (itProduct (i0 :: isos) (s0 :: shutters)) 0 ⟨i0, s0, "off", "off", g0⟩
  have hf := run_fields_ok nm path g0 (fun _ => true) i0 s0 isos shutters
    hall.2.2
  refine ⟨_, _, hf.1, ?_⟩
  intro hmem
  rw [List.mem_append] at hmem
  rcases hmem with hmem | hmem
  · simp at hmem
  · exact captureLoop_no_close path nm _ _ _ _ hmem

/-- C8 counterexample: with the duplicate ISO list I=[100,100] and
S=[1000], the session performs |I|·|S| = 2 capture calls but the two
destination filenames coincide, so the artifact filenames are not pairwise
distinct. -/
theorem artifact_names_duplicate_cex :
    (run "raw" [100, 100] [1000] "capture/t" ⟨1, 1⟩
        (fun _ => true)).imageFiles.length
      = ([100, 100] : List Nat).length * ([1000] : List Nat).length ∧
    ¬ (run "raw" [100, 100] [1000] "capture/t" ⟨1, 1⟩
        (fun _ => true)).imageFiles.Nodup := by
  decide

/-- C8 amended: for every duplicate-free ISO list and duplicate-free
shutter-speed list, the session produces |I|·|S| image files whose
destination filenames are pairwise distinct (both values appear in the
filename and the decimal renderings cannot collide). -/
theorem artifact_names_distinct (nm path : String) (g0 : Gains)
    (isos shutters : List Nat) (hI : isos.Nodup) (hS : shutters.Nodup) :
    (run nm isos shutters path g0 (fun _ => true)).imageFiles.length
        = isos.length * shutters.length ∧
    (run nm isos shutters path g0 (fun _ => true)).imageFiles.Nodup := by
  match isos, shutters with
  | [], ss => exact ⟨by simp [run], by simp [run]⟩
  | i0 :: is', [] => exact ⟨by simp [run], by simp [run]⟩
  | i0 :: is', s0 :: ss' =>
    have hall := captureLoop_allOk path nm (itProduct (i0 :: is') (s0 :: ss'))
      0 ⟨i0, s0, "off", "off", g0⟩
    have hf := run_fields_ok nm path g0 (fun _ => true) i0 s0 is' ss' hall.2.2
    rw [hf.2.1, hall.2.1]
    constructor
    · rw [List.length_map, itProduct_length]
    · exact (itProduct_nodup hI hS).map_on fun p _ q _ h => dest_inj path nm h

/-- Witness for C8 amended at name "raw", I=[100], S=[1000,2500]: both
lists are duplicate-free and the two destination filenames are distinct. -/
theorem artifact_names_distinct_witness :
    ([100] : List Nat).Nodup ∧ ([1000, 2500] : List Nat).Nodup ∧
    ((run "raw" [100] [1000, 2500] "capture/t" ⟨1, 1⟩
        (fun _ => true)).imageFiles.length
        = ([100] : List Nat).length * ([1000, 2500] : List Nat).length ∧
     (run "raw" [100] [1000, 2500] "capture/t" ⟨1, 1⟩
        (fun _ => true)).imageFiles.Nodup) :=
  ⟨by decide, by decide,
   artifact_names_distinct "raw" "capture/t" ⟨1, 1⟩ [100] [1000, 2500]
     (by decide) (by decide)⟩

/-- C9: session initialization is idempotent: when the joined path is not
broken for an unrelated reason, creating it succeeds even if it already
exists — two invocations within the same timestamp second both succeed and
return the same filesystem — and an initialization error can arise only
when the path fails for a reason other than already existing. -/
theorem session_init_idempotent (fs : FS) (ts : String)
    (h : pyJoin folder ts ∉ fs.broken) :
    (∃ fs₁, sessionInit fs ts = .ok (fs₁, pyJoin folder ts) ∧
        sessionInit fs₁ ts = .ok (fs₁, pyJoin folder ts)) ∧
    ∀ (fs' : FS) (e : OSErr), sessionInit fs' ts = .error e →
        pyJoin folder ts ∈ fs'.broken ∧ e = .other := by
  constructor
  · by_cases hd : pyJoin folder ts ∈ fs.dirs
    · exact ⟨fs, by simp [sessionInit, makedirs, h, hd, Except.map],
        by simp [sessionInit, makedirs, h, hd, Except.map]⟩
    · refine ⟨{ fs with dirs := pyJoin folder ts :: fs.dirs }, ?_, ?_⟩
      · simp [sessionInit, makedirs, h, hd, Except.map]
      · simp [sessionInit, makedirs, h, Except.map]
  · intro fs' e he
    simp only [sessionInit] at he
    by_cases hb : pyJoin folder ts ∈ fs'.broken
    · rw [makedirs, if_pos hb] at he
      simp only [Except.map] at he
      exact ⟨hb, (by simpa using he : OSErr.other = e).symm⟩
    · rw [makedirs, if_neg hb] at he
      by_cases hd : pyJoin folder ts ∈ fs'.dirs
      · rw [if_pos hd] at he
        simp [Except.map] at he
      · rw [if_neg hd] at he
        simp [Except.map] at he

/-- Witness for C9 on the empty filesystem with a fixed timestamp: the path
is not broken, both invocations succeed, and errors imply a broken path. -/
theorem session_init_idempotent_witness :
    pyJoin folder "2019-01-01-00-00-00" ∉ FS.broken ⟨[], []⟩ ∧
    ((∃ fs₁, sessionInit ⟨[], []⟩ "2019-01-01-00-00-00"
          = .ok (fs₁, pyJoin folder "2019-01-01-00-00-00") ∧
        sessionInit fs₁ "2019-01-01-00-00-00"
          = .ok (fs₁, pyJoin folder "2019-01-01-00-00-00")) ∧
     ∀ (fs' : FS) (e : OSErr),
        sessionInit fs' "2019-01-01-00-00-00" = .error e →
          pyJoin folder "2019-01-01-00-00-00" ∈ fs'.broken ∧ e = .other) :=
  ⟨by decide,
   session_init_idempotent ⟨[], []⟩ "2019-01-01-00-00-00" (by decide)⟩

end Capture
